import Mathlib

/-!
Shallow embedding of the pixel-comparison kernel `compareImages` from
`src/scripts.ts` of wesbos/diff, together with the data it operates on.

Conventions of the embedding:
* JS numbers holding pixel data and arithmetic on them are modelled by `ℚ`
  (all arithmetic in the kernel is on small byte values and exact decimal
  literals); array indices and dimensions by `ℕ`.
* A JS `ImageData` (a `Uint8ClampedArray` plus dimensions) is a list of
  naturals plus `width`/`height`.  In-range reads in the kernel are modelled
  with `List.getD _ 0`; all claims restrict attention to well-formed buffers
  (`data.length = width*height*4`), where every read performed by the kernel
  is in range, so the default is never observable.
* `hslToRgb` is imported by `src/scripts.ts` from `./utils`, a file not
  present in the repository snapshot; the kernel is therefore parameterized
  over it (`hslToRgb : ℚ → ℚ → ℚ → ℕ × ℕ × ℕ`).
* `diffCtx.createImageData(width, height)` at line 159 is an external
  canvas API call; per the HTML standard it throws `IndexSizeError` when
  either requested dimension is zero and otherwise returns a zero-filled
  `width*height*4` array.  The total kernel `compareImages` below models
  the positive-size behavior; `compareImagesJS` restores the zero-size
  error path, under which the source throws before any score is computed
  and the `contentPixels === 0` early return of lines 283-285 is
  unreachable.
* The source's `highestDiff`/`lowestDiff` accumulators feed only a
  `console.log` and are omitted; the color branches below the
  `showScaleDiff` block (lines 255-274) are unreachable because
  `showScaleDiff` is the constant `true` and that block ends in `continue`,
  so they are omitted as dead code.
-/

/-- The `ImageData` interface of `src/scripts.ts` (lines 100-104): raw RGBA
bytes in row-major interleaved order plus the dimensions. -/
structure ImageData where
  data : List ℕ
  width : ℕ
  height : ℕ
deriving DecidableEq, Repr

/-- A buffer is well formed when its pixel sequence has exactly
`width*height*4` entries of byte size, as the spec's `RasterBuffer` demands. -/
def wellFormed (img : ImageData) : Prop :=
  img.data.length = img.width * img.height * 4 ∧ ∀ v ∈ img.data, v ≤ 255

instance (img : ImageData) : Decidable (wellFormed img) := by
  unfold wellFormed; infer_instance

/-- Fetch one RGBA quadruple, `(0,0,0,0)` outside the buffer's own bounds:
lines 168-192 of `src/scripts.ts` (`let r1 = 0, ...; if (x < width && y < height) { ... }`). -/
def getPixel (img : ImageData) (x y : ℕ) : ℕ × ℕ × ℕ × ℕ :=
  if x < img.width ∧ y < img.height then
    let i := (y * img.width + x) * 4
    (img.data.getD i 0, img.data.getD (i + 1) 0,
     img.data.getD (i + 2) 0, img.data.getD (i + 3) 0)
  else (0, 0, 0, 0)

/-- The per-pixel weighted difference of lines 211-220:
`(rDiff*0.299 + gDiff*0.587 + bDiff*0.114 + aDiff*0.1) / (255 * 1.1)` with
`rDiff = |r1 - r2|` and so on. -/
def pixelDiffOf (img1Data img2Data : ImageData) (x y : ℕ) : ℚ :=
  let p1 := getPixel img1Data x y
  let p2 := getPixel img2Data x y
  let rDiff := |(p1.1 : ℚ) - (p2.1 : ℚ)|
  let gDiff := |(p1.2.1 : ℚ) - (p2.2.1 : ℚ)|
  let bDiff := |(p1.2.2.1 : ℚ) - (p2.2.2.1 : ℚ)|
  let aDiff := |(p1.2.2.2 : ℚ) - (p2.2.2.2 : ℚ)|
  (rDiff * 0.299 + gDiff * 0.587 + bDiff * 0.114 + aDiff * 0.1) / (255 * 1.1)

/-- Selector for the four RGBA channels of a fetched quadruple, in the
order `r, g, b, a` used by lines 211-214. -/
def channel (c : Fin 4) (p : ℕ × ℕ × ℕ × ℕ) : ℕ :=
  match c.val with
  | 0 => p.1
  | 1 => p.2.1
  | 2 => p.2.2.1
  | _ => p.2.2.2

/-- The absolute per-channel difference `Math.abs(ch1 - ch2)` of the fetched
pixels at a cell (lines 211-214), indexed by channel. -/
def chanDiff (a b : ImageData) (x y : ℕ) (c : Fin 4) : ℚ :=
  |(channel c (getPixel a x y) : ℚ) - (channel c (getPixel b x y) : ℚ)|

/-- The accumulation loop of lines 161-276: for every `y < height` and
`x < width` (bounding-box dimensions) it executes `contentPixels++` and
`totalDiff += pixelDiff`, both unconditionally.  Returns
`(totalDiff, contentPixels)`. -/
def compareLoop (img1Data img2Data : ImageData) : ℚ × ℕ :=
  let width := max img1Data.width img2Data.width
  let height := max img1Data.height img2Data.height
  (List.range height).foldl
    (fun acc y =>
      (List.range width).foldl
        (fun acc2 x => (acc2.1 + pixelDiffOf img1Data img2Data x y, acc2.2 + 1))
        acc)
    (0, 0)

/-- One pixel of the diff visualization (lines 239-253): below the `0.01`
visibility threshold the pixel keeps the transparent-black zeros that
`createImageData` initialized it to; otherwise it is written with
`hslToRgb((1 - pixelDiff) * 0.7, 1, 0.5)` and alpha `255`. -/
def diffPixel (hslToRgb : ℚ → ℚ → ℚ → ℕ × ℕ × ℕ)
    (img1Data img2Data : ImageData) (x y : ℕ) : ℕ × ℕ × ℕ × ℕ :=
  let d := pixelDiffOf img1Data img2Data x y
  if d < 0.01 then (0, 0, 0, 0)
  else
    let hsl := hslToRgb ((1 - d) * 0.7) 1 0.5
    (hsl.1, hsl.2.1, hsl.2.2, 255)

/-- The flattened diff image array.  `createImageData` zero-fills the array
and each loop iteration either leaves its 4-byte block untouched
(`pixelDiff < 0.01`, the `continue` at line 241) or overwrites exactly the
block at `(y*width + x)*4`, so byte `n` of the final array is the
`n % 4`-th component of `diffPixel` at cell `n / 4`. -/
def diffByte (hslToRgb : ℚ → ℚ → ℚ → ℕ × ℕ × ℕ)
    (img1Data img2Data : ImageData) (n : ℕ) : ℕ :=
  let width := max img1Data.width img2Data.width
  let p := diffPixel hslToRgb img1Data img2Data ((n / 4) % width) ((n / 4) / width)
  match n % 4 with
  | 0 => p.1
  | 1 => p.2.1
  | 2 => p.2.2.1
  | _ => p.2.2.2

/-- The flattened diff image array, byte `n` being `diffByte` at `n`; this
is the array `createImageData` returns (and the loop fills) on a
positive-size grid, the only case in which the call returns at all (see
`compareImagesJS` for the zero-size error path). -/
def diffData (hslToRgb : ℚ → ℚ → ℚ → ℕ × ℕ × ℕ)
    (img1Data img2Data : ImageData) : List ℕ :=
  let width := max img1Data.width img2Data.width
  let height := max img1Data.height img2Data.height
  (List.range (width * height * 4)).map (diffByte hslToRgb img1Data img2Data)

/-- Result of `compareImages`: the score and the diff canvas (lines 149,
285, 291). -/
structure CompareResult where
  score : ℚ
  diffCanvas : ImageData
deriving Repr

/-- The kernel `compareImages` of `src/scripts.ts` lines 146-292:
bounding-box dimensions, the accumulation loop, the early `score: 0` return
when `contentPixels === 0`, and otherwise
`score = Math.max(0, Math.min(100, (1 - totalDiff/contentPixels) * 100))`.
This total function models the kernel body below its `createImageData`
call, which only returns for a positive-size bounding box; its
`contentPixels = 0` branch realizes the source's lines 283-285, which a
conformant canvas makes unreachable (see `compareImagesJS`). -/
def compareImages (hslToRgb : ℚ → ℚ → ℚ → ℕ × ℕ × ℕ)
    (img1Data img2Data : ImageData) : CompareResult :=
  let width := max img1Data.width img2Data.width
  let height := max img1Data.height img2Data.height
  let diffCanvas : ImageData :=
    ⟨diffData hslToRgb img1Data img2Data, width, height⟩
  let acc := compareLoop img1Data img2Data
  let totalDiff := acc.1
  let contentPixels := acc.2
  if contentPixels = 0 then ⟨0, diffCanvas⟩
  else
    let avgDiff := totalDiff / (contentPixels : ℚ)
    ⟨max 0 (min 100 ((1 - avgDiff) * 100)), diffCanvas⟩

/-- A concrete stand-in HSL conversion used only to instantiate the
`hslToRgb` parameter in concrete evaluations. -/
def hslZero : ℚ → ℚ → ℚ → ℕ × ℕ × ℕ := fun _ _ _ => (0, 0, 0)

/-- Modelled from the spec: `src/scripts.ts` performs no buffer validation
and the repository contains no `InvalidBufferError`; spec section 7 specifies
that a `RasterBuffer` whose pixel sequence length differs from
`width*height*4` must be rejected with an `InvalidBufferError` before the
engine runs. -/
inductive InvalidBufferError where
  | mk
deriving DecidableEq, Repr

/-- Modelled from the spec: the precondition check of spec section 7, absent
from `src/`, as a validating wrapper around the kernel.  The length check
runs before `compareImages` is invoked, so no score is computed for a
malformed buffer. -/
def checkedCompareImages (hslToRgb : ℚ → ℚ → ℚ → ℕ × ℕ × ℕ)
    (img1Data img2Data : ImageData) :
    Except InvalidBufferError CompareResult :=
  if img1Data.data.length = img1Data.width * img1Data.height * 4 ∧
      img2Data.data.length = img2Data.width * img2Data.height * 4 then
    Except.ok (compareImages hslToRgb img1Data img2Data)
  else
    Except.error InvalidBufferError.mk

/-- Modelled from the HTML canvas standard: the `IndexSizeError` exception
that `diffCtx.createImageData(width, height)` (line 159 of
`src/scripts.ts`) throws when either requested dimension is zero. -/
inductive IndexSizeError where
  | mk
deriving DecidableEq, Repr

/-- The kernel together with the error path of its `createImageData` call:
line 159 runs before the comparison loop, so with a zero-width or
zero-height bounding box the source throws `IndexSizeError` before any
score is computed — leaving the `contentPixels === 0` early return of
lines 283-285 unreachable — while on a positive-size bounding box
`createImageData` succeeds and the rest of the kernel is total. -/
def compareImagesJS (hslToRgb : ℚ → ℚ → ℚ → ℕ × ℕ × ℕ)
    (img1Data img2Data : ImageData) :
    Except IndexSizeError CompareResult :=
  if max img1Data.width img2Data.width = 0 ∨
      max img1Data.height img2Data.height = 0 then
    Except.error IndexSizeError.mk
  else
    Except.ok (compareImages hslToRgb img1Data img2Data)

/-- The inner `for x` loop adds the row's pixel differences to the first
accumulator and counts one pixel per iteration. -/
lemma innerLoop_eq (a b : ImageData) (y : ℕ) (init : ℚ × ℕ) (n : ℕ) :
    (List.range n).foldl
        (fun acc2 x => (acc2.1 + pixelDiffOf a b x y, acc2.2 + 1)) init
      = (init.1 + ∑ x ∈ Finset.range n, pixelDiffOf a b x y, init.2 + n) := by
  induction n generalizing init with
  | zero => simp
  | succ n ih =>
      rw [List.range_succ, List.foldl_append, ih]
      simp [Finset.sum_range_succ, add_assoc]

/-- The nested `for y / for x` loops accumulate the double sum of pixel
differences and count `m * n` pixels. -/
lemma outerLoop_eq (a b : ImageData) (n : ℕ) (init : ℚ × ℕ) (m : ℕ) :
    (List.range m).foldl
        (fun acc y =>
          (List.range n).foldl
            (fun acc2 x => (acc2.1 + pixelDiffOf a b x y, acc2.2 + 1)) acc)
        init
      = (init.1 + ∑ y ∈ Finset.range m, ∑ x ∈ Finset.range n, pixelDiffOf a b x y,
         init.2 + m * n) := by
  induction m generalizing init with
  | zero => simp
  | succ m ih =>
      rw [List.range_succ, List.foldl_append, ih]
      simp [innerLoop_eq, Finset.sum_range_succ, add_assoc, Nat.succ_mul]

/-- `compareLoop` returns the total weighted difference over the bounding-box
grid and the grid size. -/
lemma compareLoop_eq (a b : ImageData) :
    compareLoop a b
      = (∑ y ∈ Finset.range (max a.height b.height),
           ∑ x ∈ Finset.range (max a.width b.width), pixelDiffOf a b x y,
         max a.height b.height * max a.width b.width) := by
  unfold compareLoop
  rw [outerLoop_eq]
  simp

/-- Closed form of the kernel's score. -/
lemma compareImages_score (hsl : ℚ → ℚ → ℚ → ℕ × ℕ × ℕ) (a b : ImageData) :
    (compareImages hsl a b).score
      = if max a.height b.height * max a.width b.width = 0 then 0
        else max 0 (min 100 ((1 -
          (∑ y ∈ Finset.range (max a.height b.height),
             ∑ x ∈ Finset.range (max a.width b.width), pixelDiffOf a b x y) /
          ((max a.height b.height * max a.width b.width : ℕ) : ℚ)) * 100)) := by
  unfold compareImages
  rw [compareLoop_eq]
  by_cases h : max a.height b.height * max a.width b.width = 0 <;> simp [h]

/-- The kernel's diff canvas: the flattened diff data at the bounding-box
dimensions, independent of which score branch is taken. -/
lemma compareImages_diffCanvas (hsl : ℚ → ℚ → ℚ → ℕ × ℕ × ℕ) (a b : ImageData) :
    (compareImages hsl a b).diffCanvas
      = ⟨diffData hsl a b, max a.width b.width, max a.height b.height⟩ := by
  unfold compareImages
  by_cases h : (compareLoop a b).2 = 0 <;> simp [h]

/-- Every per-pixel weighted difference is nonnegative. -/
lemma pixelDiffOf_nonneg (a b : ImageData) (x y : ℕ) :
    0 ≤ pixelDiffOf a b x y := by
  unfold pixelDiffOf
  positivity

/-- The per-pixel weighted difference is symmetric in the two buffers. -/
lemma pixelDiffOf_comm (a b : ImageData) (x y : ℕ) :
    pixelDiffOf a b x y = pixelDiffOf b a x y := by
  simp only [pixelDiffOf]
  rw [abs_sub_comm ((getPixel a x y).1 : ℚ),
      abs_sub_comm ((getPixel a x y).2.1 : ℚ),
      abs_sub_comm ((getPixel a x y).2.2.1 : ℚ),
      abs_sub_comm ((getPixel a x y).2.2.2 : ℚ)]

/-- The clamp `Math.max(0, Math.min(100, s))` stays within `[0, 100]`. -/
lemma clamp_mem (s : ℚ) : 0 ≤ max 0 (min 100 s) ∧ max 0 (min 100 s) ≤ 100 :=
  ⟨le_max_left 0 _, max_le (by norm_num) (min_le_left 100 s)⟩

/-- The clamp is monotone. -/
lemma clamp_mono {s t : ℚ} (h : s ≤ t) :
    max 0 (min 100 s) ≤ max 0 (min 100 t) :=
  max_le_max le_rfl (min_le_min le_rfl h)

/-- The clamp hits `100` exactly when the unclamped value is at least
`100`. -/
lemma clamp_eq_100_iff (s : ℚ) : max 0 (min 100 s) = 100 ↔ 100 ≤ s := by
  constructor
  · intro h
    by_contra hs
    push_neg at hs
    rcases le_total s 0 with h0 | h0
    · rw [min_eq_right (by linarith), max_eq_left h0] at h
      norm_num at h
    · rw [min_eq_right (by linarith), max_eq_right h0] at h
      linarith
  · intro h
    rw [min_eq_left h]
    norm_num

/-- Reading the flattened diff array at an in-range byte index yields
`diffByte` there. -/
lemma diffData_getD (hsl : ℚ → ℚ → ℚ → ℕ × ℕ × ℕ) (a b : ImageData)
    {n : ℕ} (hn : n < max a.width b.width * max a.height b.height * 4) :
    (diffData hsl a b).getD n 0 = diffByte hsl a b n := by
  simp only [diffData]
  rw [List.getD_eq_getElem?_getD, List.getElem?_map, List.getElem?_range hn]
  rfl

/-- Splitting a row-major cell index back into its coordinates. -/
lemma cellIndex_decomp {W x : ℕ} (y : ℕ) (hx : x < W) :
    (y * W + x) % W = x ∧ (y * W + x) / W = y := by
  have hW0 : 0 < W := lt_of_le_of_lt (Nat.zero_le x) hx
  constructor
  · rw [Nat.mul_comm y W, Nat.mul_add_mod, Nat.mod_eq_of_lt hx]
  · rw [Nat.add_comm, Nat.mul_comm y W, Nat.add_mul_div_left _ _ hW0,
      Nat.div_eq_of_lt hx, Nat.zero_add]

/-- In-range byte indices are below the array length. -/
lemma byteIndex_lt {W H x y k : ℕ} (hx : x < W) (hy : y < H) (hk : k < 4) :
    (y * W + x) * 4 + k < W * H * 4 := by
  have hcell : y * W + x + 1 ≤ H * W := by
    calc y * W + x + 1 ≤ y * W + W := by omega
      _ = (y + 1) * W := by ring
      _ ≤ H * W := Nat.mul_le_mul_right W hy
  have h2 : (y * W + x + 1) * 4 ≤ H * W * 4 := Nat.mul_le_mul_right 4 hcell
  have h3 : W * H * 4 = H * W * 4 := by ring
  omega

/-- A pixel of the kernel's diff canvas: `diffPixel` inside the bounding
box, transparent black outside it. -/
lemma getPixel_diffCanvas (hsl : ℚ → ℚ → ℚ → ℕ × ℕ × ℕ) (a b : ImageData)
    (x y : ℕ) :
    getPixel (compareImages hsl a b).diffCanvas x y
      = if x < max a.width b.width ∧ y < max a.height b.height
        then diffPixel hsl a b x y
        else (0, 0, 0, 0) := by
  rw [compareImages_diffCanvas]
  unfold getPixel
  by_cases h : x < max a.width b.width ∧ y < max a.height b.height
  · obtain ⟨hx, hy⟩ := h
    simp only [hx, hy, and_self, if_true]
    obtain ⟨hmW, hdW⟩ := cellIndex_decomp (W := max a.width b.width) y hx
    have g0 : (diffData hsl a b).getD ((y * max a.width b.width + x) * 4) 0
        = diffByte hsl a b ((y * max a.width b.width + x) * 4) := by
      have h0 := diffData_getD hsl a b (byteIndex_lt (k := 0) hx hy (by norm_num))
      simpa using h0
    have g1 : (diffData hsl a b).getD ((y * max a.width b.width + x) * 4 + 1) 0
        = diffByte hsl a b ((y * max a.width b.width + x) * 4 + 1) :=
      diffData_getD hsl a b (byteIndex_lt hx hy (by norm_num))
    have g2 : (diffData hsl a b).getD ((y * max a.width b.width + x) * 4 + 2) 0
        = diffByte hsl a b ((y * max a.width b.width + x) * 4 + 2) :=
      diffData_getD hsl a b (byteIndex_lt hx hy (by norm_num))
    have g3 : (diffData hsl a b).getD ((y * max a.width b.width + x) * 4 + 3) 0
        = diffByte hsl a b ((y * max a.width b.width + x) * 4 + 3) :=
      diffData_getD hsl a b (byteIndex_lt hx hy (by norm_num))
    rw [g0, g1, g2, g3]
    have e0 : (y * max a.width b.width + x) * 4 % 4 = 0 := by omega
    have e0d : (y * max a.width b.width + x) * 4 / 4
        = y * max a.width b.width + x := by omega
    have e1 : ((y * max a.width b.width + x) * 4 + 1) % 4 = 1 := by omega
    have e1d : ((y * max a.width b.width + x) * 4 + 1) / 4
        = y * max a.width b.width + x := by omega
    have e2 : ((y * max a.width b.width + x) * 4 + 2) % 4 = 2 := by omega
    have e2d : ((y * max a.width b.width + x) * 4 + 2) / 4
        = y * max a.width b.width + x := by omega
    have e3 : ((y * max a.width b.width + x) * 4 + 3) % 4 = 3 := by omega
    have e3d : ((y * max a.width b.width + x) * 4 + 3) / 4
        = y * max a.width b.width + x := by omega
    simp only [diffByte, e0, e0d, e1, e1d, e2, e2d, e3, e3d, hmW, hdW]
  · simp only [h, if_false]

/-- The per-pixel weighted difference vanishes exactly when the two fetched
RGBA quadruples agree. -/
lemma pixelDiffOf_eq_zero_iff (a b : ImageData) (x y : ℕ) :
    pixelDiffOf a b x y = 0 ↔ getPixel a x y = getPixel b x y := by
  rcases hP : getPixel a x y with ⟨pr, pg, pb, pa⟩
  rcases hQ : getPixel b x y with ⟨qr, qg, qb, qa⟩
  simp only [pixelDiffOf, hP, hQ]
  constructor
  · intro h
    rw [div_eq_zero_iff] at h
    rcases h with h | h
    · have key : ∀ (u v : ℕ) (w : ℚ), 0 < w → |(u : ℚ) - (v : ℚ)| * w = 0 → u = v := by
        intro u v w hw h0
        rcases mul_eq_zero.mp h0 with h' | h'
        · exact_mod_cast sub_eq_zero.mp (abs_eq_zero.mp h')
        · exact absurd h' (ne_of_gt hw)
      have n1 : (0 : ℚ) ≤ |(pr : ℚ) - (qr : ℚ)| * 0.299 := by positivity
      have n2 : (0 : ℚ) ≤ |(pg : ℚ) - (qg : ℚ)| * 0.587 := by positivity
      have n3 : (0 : ℚ) ≤ |(pb : ℚ) - (qb : ℚ)| * 0.114 := by positivity
      have n4 : (0 : ℚ) ≤ |(pa : ℚ) - (qa : ℚ)| * 0.1 := by positivity
      have e1 : pr = qr := key pr qr 0.299 (by norm_num) (by linarith)
      have e2 : pg = qg := key pg qg 0.587 (by norm_num) (by linarith)
      have e3 : pb = qb := key pb qb 0.114 (by norm_num) (by linarith)
      have e4 : pa = qa := key pa qa 0.1 (by norm_num) (by linarith)
      simp [e1, e2, e3, e4]
    · norm_num at h
  · intro h
    simp only [Prod.mk.injEq] at h
    obtain ⟨h1, h2, h3, h4⟩ := h
    subst h1; subst h2; subst h3; subst h4
    simp

/-- The accumulated total is nonnegative. -/
lemma totalDiff_nonneg (a b : ImageData) :
    0 ≤ ∑ y ∈ Finset.range (max a.height b.height),
          ∑ x ∈ Finset.range (max a.width b.width), pixelDiffOf a b x y :=
  Finset.sum_nonneg fun y _ => Finset.sum_nonneg fun x _ => pixelDiffOf_nonneg a b x y

/-- The accumulated total vanishes exactly when every bounding-box cell's
fetched quadruples agree. -/
lemma totalDiff_eq_zero_iff (a b : ImageData) :
    (∑ y ∈ Finset.range (max a.height b.height),
       ∑ x ∈ Finset.range (max a.width b.width), pixelDiffOf a b x y) = 0
      ↔ ∀ x, x < max a.width b.width → ∀ y, y < max a.height b.height →
          getPixel a x y = getPixel b x y := by
  rw [Finset.sum_eq_zero_iff_of_nonneg
    (fun y _ => Finset.sum_nonneg fun x _ => pixelDiffOf_nonneg a b x y)]
  constructor
  · intro h x hx y hy
    have hy' := h y (Finset.mem_range.mpr hy)
    rw [Finset.sum_eq_zero_iff_of_nonneg
      (fun x _ => pixelDiffOf_nonneg a b x y)] at hy'
    exact (pixelDiffOf_eq_zero_iff a b x y).mp (hy' x (Finset.mem_range.mpr hx))
  · intro h y hy
    apply Finset.sum_eq_zero
    intro x hx
    exact (pixelDiffOf_eq_zero_iff a b x y).mpr
      (h x (Finset.mem_range.mp hx) y (Finset.mem_range.mp hy))

/-- C1 counterexample: for the 1×1 pair below the single pixel's weighted
difference is `1/2805`, strictly below `0.005`, yet the loop accumulates
exactly `1/2805` — not `0` — into `totalDiff`, so no sub-`0.005` pixel is
excluded from the total. -/
theorem c1_counterexample :
    pixelDiffOf ⟨[0, 0, 0, 0], 1, 1⟩ ⟨[0, 0, 0, 1], 1, 1⟩ 0 0 = 1 / 2805 ∧
    (1 / 2805 : ℚ) < 0.005 ∧
    (compareLoop ⟨[0, 0, 0, 0], 1, 1⟩ ⟨[0, 0, 0, 1], 1, 1⟩).1 = 1 / 2805 ∧
    (compareLoop ⟨[0, 0, 0, 0], 1, 1⟩ ⟨[0, 0, 0, 1], 1, 1⟩).1 ≠ 0 := by
  refine ⟨?_, by norm_num, ?_, ?_⟩ <;>
    norm_num [compareLoop, pixelDiffOf, getPixel, List.range_succ]

/-- C1 (amended): the kernel has no noise floor — every cell's `pixelDiff`,
including any value below `0.005`, is accumulated in full into `totalDiff`,
and every bounding-box cell counts toward `totalPixels`. -/
theorem c1_no_noise_floor (a b : ImageData) :
    (compareLoop a b).1
        = (∑ y ∈ Finset.range (max a.height b.height),
             ∑ x ∈ Finset.range (max a.width b.width), pixelDiffOf a b x y) ∧
    (compareLoop a b).2 = max a.height b.height * max a.width b.width := by
  rw [compareLoop_eq]
  exact ⟨rfl, rfl⟩

/-- C2: a buffer whose pixel sequence length differs from `width*height*4`
makes the validating wrapper raise `InvalidBufferError` before any score is
computed; with well-formed buffers it never errors and returns the kernel's
result. -/
theorem c2_invalid_buffer (hsl : ℚ → ℚ → ℚ → ℕ × ℕ × ℕ) (a b : ImageData) :
    (a.data.length ≠ a.width * a.height * 4 ∨
        b.data.length ≠ b.width * b.height * 4 →
      checkedCompareImages hsl a b = Except.error InvalidBufferError.mk) ∧
    (a.data.length = a.width * a.height * 4 →
        b.data.length = b.width * b.height * 4 →
      checkedCompareImages hsl a b = Except.ok (compareImages hsl a b)) := by
  constructor
  · intro h
    unfold checkedCompareImages
    rw [if_neg (by tauto)]
  · intro h1 h2
    unfold checkedCompareImages
    rw [if_pos ⟨h1, h2⟩]

/-- C2 witness: a 1×1 buffer with a single byte is rejected, and a pair of
well-formed 1×1 buffers is accepted. -/
theorem c2_witness :
    checkedCompareImages hslZero ⟨[0], 1, 1⟩ ⟨[0, 0, 0, 0], 1, 1⟩
        = Except.error InvalidBufferError.mk ∧
    checkedCompareImages hslZero ⟨[0, 0, 0, 0], 1, 1⟩ ⟨[0, 0, 0, 0], 1, 1⟩
        = Except.ok (compareImages hslZero ⟨[0, 0, 0, 0], 1, 1⟩ ⟨[0, 0, 0, 0], 1, 1⟩) :=
  ⟨(c2_invalid_buffer hslZero _ _).1 (Or.inl (by decide)),
   (c2_invalid_buffer hslZero _ _).2 (by decide) (by decide)⟩

/-- C3: comparing a positive-size buffer against itself scores exactly 100
and leaves every pixel of the diff canvas fully transparent (alpha 0). -/
theorem c3_identity (hsl : ℚ → ℚ → ℚ → ℕ × ℕ × ℕ) (a : ImageData)
    (hw : 0 < a.width) (hh : 0 < a.height) :
    (compareImages hsl a a).score = 100 ∧
    ∀ x y : ℕ, (getPixel (compareImages hsl a a).diffCanvas x y).2.2.2 = 0 := by
  have hzero : ∀ x y : ℕ, pixelDiffOf a a x y = 0 := fun x y =>
    (pixelDiffOf_eq_zero_iff a a x y).mpr rfl
  constructor
  · rw [compareImages_score]
    have hN : ¬ max a.height a.height * max a.width a.width = 0 := by
      simp only [max_self]
      exact Nat.mul_ne_zero (by omega) (by omega)
    rw [if_neg hN]
    have hs : (∑ y ∈ Finset.range (max a.height a.height),
        ∑ x ∈ Finset.range (max a.width a.width), pixelDiffOf a a x y) = 0 :=
      Finset.sum_eq_zero fun y _ => Finset.sum_eq_zero fun x _ => hzero x y
    rw [hs]
    norm_num
  · intro x y
    rw [getPixel_diffCanvas]
    by_cases h : x < max a.width a.width ∧ y < max a.height a.height
    · rw [if_pos h]
      simp only [diffPixel, hzero]
      norm_num
    · rw [if_neg h]

/-- C3 witness at a concrete 1×1 buffer. -/
theorem c3_witness :
    (compareImages hslZero ⟨[1, 2, 3, 4], 1, 1⟩ ⟨[1, 2, 3, 4], 1, 1⟩).score = 100 ∧
    (getPixel
        (compareImages hslZero ⟨[1, 2, 3, 4], 1, 1⟩ ⟨[1, 2, 3, 4], 1, 1⟩).diffCanvas
        0 0).2.2.2 = 0 :=
  ⟨(c3_identity hslZero ⟨[1, 2, 3, 4], 1, 1⟩ (by decide) (by decide)).1,
   (c3_identity hslZero ⟨[1, 2, 3, 4], 1, 1⟩ (by decide) (by decide)).2 0 0⟩

/-- C4 (code bug at the zero-size conjunct): at the claim's own example
input — two 0×0 buffers — the kernel with the browser's `createImageData`
error path throws `IndexSizeError` before any score is computed, instead
of returning the score 0 that the claim specifies; the total kernel, which
realizes the intent of the unreachable `contentPixels === 0` branch of
lines 283-285, does give score 0 there. -/
theorem c4_zero_size_throws :
    compareImagesJS hslZero ⟨[], 0, 0⟩ ⟨[], 0, 0⟩
        = Except.error IndexSizeError.mk ∧
    (compareImages hslZero ⟨[], 0, 0⟩ ⟨[], 0, 0⟩).score = 0 := by
  constructor
  · rfl
  · rfl

/-- C5: the diff canvas carries the element-wise maximum dimensions, any
out-of-bounds coordinate fetches transparent black, and every bounding-box
cell counts toward the `totalPixels` denominator. -/
theorem c5_dimensions (hsl : ℚ → ℚ → ℚ → ℕ × ℕ × ℕ) (a b : ImageData)
    (ha : wellFormed a) (hb : wellFormed b) :
    (compareImages hsl a b).diffCanvas.width = max a.width b.width ∧
    (compareImages hsl a b).diffCanvas.height = max a.height b.height ∧
    (∀ (img : ImageData) (x y : ℕ), ¬(x < img.width ∧ y < img.height) →
      getPixel img x y = (0, 0, 0, 0)) ∧
    (compareLoop a b).2 = max a.width b.width * max a.height b.height := by
  refine ⟨?_, ?_, ?_, ?_⟩
  · rw [compareImages_diffCanvas]
  · rw [compareImages_diffCanvas]
  · intro img x y hxy
    unfold getPixel
    rw [if_neg hxy]
  · rw [compareLoop_eq]
    exact Nat.mul_comm _ _

/-- C5 witness: comparing a 2×2 buffer against a 1×1 buffer uses denominator
4, and the coordinate (1,0), absent from the 1×1 buffer, fetches
transparent black. -/
theorem c5_witness :
    (compareLoop ⟨[9, 9, 9, 9, 9, 9, 9, 9, 9, 9, 9, 9, 9, 9, 9, 9], 2, 2⟩
        ⟨[9, 9, 9, 9], 1, 1⟩).2 = 4 ∧
    getPixel ⟨[9, 9, 9, 9], 1, 1⟩ 1 0 = (0, 0, 0, 0) := by
  have h := c5_dimensions hslZero
    ⟨[9, 9, 9, 9, 9, 9, 9, 9, 9, 9, 9, 9, 9, 9, 9, 9], 2, 2⟩
    ⟨[9, 9, 9, 9], 1, 1⟩ (by decide) (by decide)
  refine ⟨?_, h.2.2.1 ⟨[9, 9, 9, 9], 1, 1⟩ 1 0 (by decide)⟩
  have h4 := h.2.2.2
  simpa using h4

/-- C6: swapping the two input buffers leaves the score unchanged. -/
theorem c6_symmetry (hsl : ℚ → ℚ → ℚ → ℕ × ℕ × ℕ) (a b : ImageData)
    (ha : wellFormed a) (hb : wellFormed b) :
    (compareImages hsl a b).score = (compareImages hsl b a).score := by
  have hsum : (∑ y ∈ Finset.range (max a.height b.height),
        ∑ x ∈ Finset.range (max a.width b.width), pixelDiffOf a b x y)
      = ∑ y ∈ Finset.range (max a.height b.height),
          ∑ x ∈ Finset.range (max a.width b.width), pixelDiffOf b a x y :=
    Finset.sum_congr rfl fun y _ =>
      Finset.sum_congr rfl fun x _ => pixelDiffOf_comm a b x y
  rw [compareImages_score, compareImages_score, max_comm b.height a.height,
      max_comm b.width a.width, hsum]

/-- C6 witness at a concrete pair of 1×1 buffers. -/
theorem c6_witness :
    (compareImages hslZero ⟨[1, 2, 3, 4], 1, 1⟩ ⟨[5, 6, 7, 8], 1, 1⟩).score
      = (compareImages hslZero ⟨[5, 6, 7, 8], 1, 1⟩ ⟨[1, 2, 3, 4], 1, 1⟩).score :=
  c6_symmetry hslZero _ _ (by decide) (by decide)

/-- C9: 1×1 fully-opaque white against 1×1 fully-opaque black gives the
weighted difference `(255*0.299 + 255*0.587 + 255*0.114 + 0*0.1)/(255*1.1)
= 1/1.1` and score exactly `(1 - 1/1.1) * 100`. -/
theorem c9_white_black :
    pixelDiffOf ⟨[255, 255, 255, 255], 1, 1⟩ ⟨[0, 0, 0, 255], 1, 1⟩ 0 0
        = (255 * 0.299 + 255 * 0.587 + 255 * 0.114 + 0 * 0.1) / (255 * 1.1) ∧
    pixelDiffOf ⟨[255, 255, 255, 255], 1, 1⟩ ⟨[0, 0, 0, 255], 1, 1⟩ 0 0
        = 1 / 1.1 ∧
    (compareImages hslZero ⟨[255, 255, 255, 255], 1, 1⟩ ⟨[0, 0, 0, 255], 1, 1⟩).score
        = (1 - 1 / 1.1) * 100 := by
  refine ⟨?_, ?_, ?_⟩
  · norm_num [pixelDiffOf, getPixel]
  · norm_num [pixelDiffOf, getPixel]
  · norm_num [compareImages, compareLoop, pixelDiffOf, getPixel, List.range_succ]

/-- The weighted formula of lines 218-220 as a combination of the four
channel differences. -/
lemma pixelDiffOf_eq_chanDiff (a b : ImageData) (x y : ℕ) :
    pixelDiffOf a b x y
      = (chanDiff a b x y 0 * 0.299 + chanDiff a b x y 1 * 0.587 +
         chanDiff a b x y 2 * 0.114 + chanDiff a b x y 3 * 0.1) / (255 * 1.1) := rfl

/-- Pointwise domination of the channel differences at a cell dominates the
cell's weighted difference. -/
lemma pixelDiffOf_le_of_chanDiff_le (a b a' b' : ImageData) (x y : ℕ)
    (h : ∀ c : Fin 4, chanDiff a b x y c ≤ chanDiff a' b' x y c) :
    pixelDiffOf a b x y ≤ pixelDiffOf a' b' x y := by
  rw [pixelDiffOf_eq_chanDiff, pixelDiffOf_eq_chanDiff]
  rw [div_le_div_iff_of_pos_right (by norm_num : (0:ℚ) < 255 * 1.1)]
  have h0 := h 0
  have h1 := h 1
  have h2 := h 2
  have h3 := h 3
  nlinarith [h0, h1, h2, h3]

/-- C7: increasing the absolute difference of a single RGBA channel at a
single cell, holding every other channel difference over the bounding box
fixed, never increases the returned score. -/
theorem c7_monotone (hsl : ℚ → ℚ → ℚ → ℕ × ℕ × ℕ) (a b a' b' : ImageData)
    (hw1 : a'.width = a.width) (hh1 : a'.height = a.height)
    (hw2 : b'.width = b.width) (hh2 : b'.height = b.height)
    (x0 y0 : ℕ) (c0 : Fin 4)
    (heq : ∀ x, x < max a.width b.width → ∀ y, y < max a.height b.height →
      ∀ c : Fin 4, (x, y, c) ≠ (x0, y0, c0) →
        chanDiff a' b' x y c = chanDiff a b x y c)
    (hge : chanDiff a b x0 y0 c0 ≤ chanDiff a' b' x0 y0 c0) :
    (compareImages hsl a' b').score ≤ (compareImages hsl a b).score := by
  rw [compareImages_score, compareImages_score, hw1, hh1, hw2, hh2]
  by_cases hN : max a.height b.height * max a.width b.width = 0
  · rw [if_pos hN, if_pos hN]
  · rw [if_neg hN, if_neg hN]
    apply clamp_mono
    have hsum : (∑ y ∈ Finset.range (max a.height b.height),
          ∑ x ∈ Finset.range (max a.width b.width), pixelDiffOf a b x y)
        ≤ ∑ y ∈ Finset.range (max a.height b.height),
            ∑ x ∈ Finset.range (max a.width b.width), pixelDiffOf a' b' x y := by
      apply Finset.sum_le_sum
      intro y hy
      apply Finset.sum_le_sum
      intro x hx
      apply pixelDiffOf_le_of_chanDiff_le
      intro c
      by_cases hc : (x, y, c) = (x0, y0, c0)
      · simp only [Prod.mk.injEq] at hc
        obtain ⟨rfl, rfl, rfl⟩ := hc
        exact hge
      · rw [heq x (Finset.mem_range.mp hx) y (Finset.mem_range.mp hy) c hc]
    have hNpos : (0 : ℚ)
        < ((max a.height b.height * max a.width b.width : ℕ) : ℚ) := by
      exact_mod_cast Nat.pos_of_ne_zero hN
    have hdiv := (div_le_div_iff_of_pos_right hNpos).mpr hsum
    linarith

/-- C7 witness: raising the alpha difference at cell (0,0) of a pair of
identical 1×1 buffers from 0 to 10 does not increase the score. -/
theorem c7_witness :
    (compareImages hslZero ⟨[0, 0, 0, 0], 1, 1⟩ ⟨[0, 0, 0, 10], 1, 1⟩).score
      ≤ (compareImages hslZero ⟨[0, 0, 0, 0], 1, 1⟩ ⟨[0, 0, 0, 0], 1, 1⟩).score :=
  c7_monotone hslZero ⟨[0, 0, 0, 0], 1, 1⟩ ⟨[0, 0, 0, 0], 1, 1⟩
    ⟨[0, 0, 0, 0], 1, 1⟩ ⟨[0, 0, 0, 10], 1, 1⟩ rfl rfl rfl rfl 0 0 3
    (by
      intro x hx y hy c hc
      simp only [show ({ data := [0, 0, 0, 0], width := 1, height := 1 } :
          ImageData).width = 1 from rfl,
        show ({ data := [0, 0, 0, 0], width := 1, height := 1 } :
          ImageData).height = 1 from rfl, max_self] at hx hy
      interval_cases x
      interval_cases y
      fin_cases c
      · norm_num [chanDiff, channel, getPixel]
      · norm_num [chanDiff, channel, getPixel]
      · norm_num [chanDiff, channel, getPixel]
      · exact absurd rfl hc)
    (by norm_num [chanDiff, channel, getPixel])

/-- C8: inside the bounding box, a pixel with `pixelDiff < 0.01` is left
fully transparent, and a pixel with `pixelDiff ≥ 0.01` carries the RGB of
`hslToRgb((1 - pixelDiff) * 0.7, 1, 0.5)` with alpha 255. -/
theorem c8_visualization (hsl : ℚ → ℚ → ℚ → ℕ × ℕ × ℕ) (a b : ImageData)
    (x y : ℕ) (hx : x < max a.width b.width) (hy : y < max a.height b.height) :
    (pixelDiffOf a b x y < 0.01 →
      getPixel (compareImages hsl a b).diffCanvas x y = (0, 0, 0, 0)) ∧
    (0.01 ≤ pixelDiffOf a b x y →
      getPixel (compareImages hsl a b).diffCanvas x y
        = ((hsl ((1 - pixelDiffOf a b x y) * 0.7) 1 0.5).1,
           (hsl ((1 - pixelDiffOf a b x y) * 0.7) 1 0.5).2.1,
           (hsl ((1 - pixelDiffOf a b x y) * 0.7) 1 0.5).2.2,
           255)) := by
  rw [getPixel_diffCanvas, if_pos ⟨hx, hy⟩]
  constructor
  · intro h
    simp only [diffPixel, if_pos h]
  · intro h
    simp only [diffPixel]
    rw [if_neg (not_lt.mpr h)]

/-- C8 witness: the white/black pixel (diff `10/11 ≥ 0.01`) is written with
the stand-in conversion's RGB and alpha 255, while an identical pair's pixel
(diff `0 < 0.01`) stays transparent. -/
theorem c8_witness :
    getPixel (compareImages hslZero ⟨[255, 255, 255, 255], 1, 1⟩
        ⟨[0, 0, 0, 255], 1, 1⟩).diffCanvas 0 0 = (0, 0, 0, 255) ∧
    getPixel (compareImages hslZero ⟨[7, 7, 7, 7], 1, 1⟩
        ⟨[7, 7, 7, 7], 1, 1⟩).diffCanvas 0 0 = (0, 0, 0, 0) := by
  constructor
  · have h := (c8_visualization hslZero ⟨[255, 255, 255, 255], 1, 1⟩
      ⟨[0, 0, 0, 255], 1, 1⟩ 0 0 (by decide) (by decide)).2
      (by norm_num [pixelDiffOf, getPixel])
    simpa [hslZero] using h
  · exact (c8_visualization hslZero ⟨[7, 7, 7, 7], 1, 1⟩ ⟨[7, 7, 7, 7], 1, 1⟩
      0 0 (by decide) (by decide)).1 (by norm_num [pixelDiffOf, getPixel])

/-- C10: for a non-empty bounding box the score is exactly 100 precisely
when every bounding-box coordinate fetches identical RGBA quadruples from
the two inputs (out-of-bounds coordinates reading as transparent black); any
single channel difference anywhere forces a score below 100. -/
theorem c10_perfect_score (hsl : ℚ → ℚ → ℚ → ℕ × ℕ × ℕ) (a b : ImageData)
    (ha : wellFormed a) (hb : wellFormed b)
    (hN : 0 < max a.width b.width * max a.height b.height) :
    (compareImages hsl a b).score = 100 ↔
      ∀ x, x < max a.width b.width → ∀ y, y < max a.height b.height →
        getPixel a x y = getPixel b x y := by
  have hN' : ¬ max a.height b.height * max a.width b.width = 0 := by
    rw [Nat.mul_comm]
    omega
  have hNpos : (0 : ℚ)
      < ((max a.height b.height * max a.width b.width : ℕ) : ℚ) := by
    exact_mod_cast Nat.pos_of_ne_zero hN'
  rw [compareImages_score, if_neg hN']
  constructor
  · intro hs
    rw [clamp_eq_100_iff] at hs
    have hfrac : (∑ y ∈ Finset.range (max a.height b.height),
          ∑ x ∈ Finset.range (max a.width b.width), pixelDiffOf a b x y) /
          ((max a.height b.height * max a.width b.width : ℕ) : ℚ) ≤ 0 := by
      linarith
    have ht : (∑ y ∈ Finset.range (max a.height b.height),
        ∑ x ∈ Finset.range (max a.width b.width), pixelDiffOf a b x y) ≤ 0 := by
      have := (div_le_iff₀ hNpos).mp hfrac
      linarith
    exact (totalDiff_eq_zero_iff a b).mp (le_antisymm ht (totalDiff_nonneg a b))
  · intro h
    rw [(totalDiff_eq_zero_iff a b).mpr h]
    norm_num

/-- C10 witness: a pair of equal 1×1 buffers satisfies the right-hand side
and therefore scores exactly 100. -/
theorem c10_witness :
    (compareImages hslZero ⟨[8, 8, 8, 8], 1, 1⟩ ⟨[8, 8, 8, 8], 1, 1⟩).score
      = 100 :=
  (c10_perfect_score hslZero ⟨[8, 8, 8, 8], 1, 1⟩ ⟨[8, 8, 8, 8], 1, 1⟩
    (by decide) (by decide) (by decide)).mpr (by decide)
